import Mathlib

/-!
Verification development for the remote-object proxy in
src/lib/MediaObject.js (kurento-client-js).

The JavaScript file defines a single constructor, MediaObject, that
inherits from the Node EventEmitter and translates local listener
additions and removals into remote subscribe/unsubscribe RPC requests,
forwards method invocations, and implements release.  We embed the
proxy as an explicit state machine:

* JS objects used as dictionaries (the tokens ledger, the emitter
  listener table keyed by event name, params objects) are modelled as
  insertion-ordered association lists with unique keys (jsGet, jsSet,
  jsDelete mirror property read, assignment and delete).
* Every emission on the outbound rpc channel, every error event
  emission, the release event, the console logging in release and the
  invocations of a user callback are recorded as elements of an Output
  trace.  The external RPC gateway is outside the repository, so an
  rpc output is simply handed to the environment.
* Each rpc request carries a completion callback in the source; we
  record it as a PendingCb value in the state, and the asynchronous
  invocation of that callback by the gateway is a separate step
  (the complete* operations below), faithful to the single-threaded
  event-loop model.
* The two listeners the constructor itself installs for newListener
  and removeListener (lines 48-91) are represented by the alive flag:
  they exist from construction until removeAllListeners detaches them.
  The Node EventEmitter semantics used by the source are: newListener
  fires before the listener is stored, removeListener fires after the
  listener is removed, EventEmitter.listenerCount counts all listeners
  currently stored for the event, and removeAllListeners removes every
  listener of every event (processing the removeListener key last),
  emitting removeListener once per removed listener.
-/

namespace KurentoMediaObject

/-- Read of a property from a JS object represented as an ordered
association list: first binding for the key, none when absent. -/
def jsGet {α : Type} : List (String × α) → String → Option α
  | [], _ => none
  | (k2, v) :: rest, k => if k2 = k then some v else jsGet rest k

/-- Property assignment on a JS object: update in place when the key
exists, append a fresh binding at the end otherwise. -/
def jsSet {α : Type} : List (String × α) → String → α → List (String × α)
  | [], k, v => [(k, v)]
  | (k2, v2) :: rest, k, v =>
      if k2 = k then (k2, v) :: rest else (k2, v2) :: jsSet rest k v

/-- The JS delete operator on an object key.  Keys are unique in every
object this development builds, so removing all bindings for the key
coincides with the JS behaviour. -/
def jsDelete {α : Type} : List (String × α) → String → List (String × α)
  | [], _ => []
  | (k2, v) :: rest, k =>
      if k2 = k then jsDelete rest k else (k2, v) :: jsDelete rest k

/-- Opaque stand-in for an arbitrary JS params object passed through
invoke (the source never inspects it). -/
abbrev ParamsObj := List (String × Int)

/-- The raw result object an invoke RPC returns on success; the source
reads its value field (line 193). -/
structure RawResult where
  value : Int
deriving DecidableEq, Repr

/-- One request emitted on the outbound rpc channel, with the payload
shapes built at lines 56-59, 79-82, 179-185 and 146 of the source.  In
unsubscribe, none models an undefined subscription field; in invoke,
none models an absent operationParams key and hasCallback records
whether a completion function (callback2) was passed along. -/
inductive RpcRequest
  | subscribe (type_ : String)
  | unsubscribe (subscription : Option String)
  | invoke (operation : String) (operationParams : Option ParamsObj) (hasCallback : Bool)
  | release
deriving DecidableEq, Repr

/-- A completion callback handed to the gateway together with an rpc
request and still outstanding.  The subscribe and unsubscribe closures
capture the event name (lines 61-66 and 84-89); the invoke closure
records whether a user callback was wrapped (lines 187-194). -/
inductive PendingCb
  | subscribeCb (event : String)
  | unsubscribeCb (event : String)
  | invokeCb (hasCallback : Bool)
  | releaseCb
deriving DecidableEq, Repr

/-- Observable effects of a step: rpc channel emissions, error event
emissions, the release event, console logging, and calls of the user
callback passed to invoke (cbError e models callback(error), cbValue v
models callback(null, result.value)). -/
inductive Output
  | rpc (req : RpcRequest)
  | errorEvent (err : String)
  | releaseEvent
  | log (err : String)
  | cbError (err : String)
  | cbValue (v : Int)
deriving DecidableEq, Repr

/-- A JS value occupying the params argument position of invoke:
null or undefined, a plain object, or a function. -/
inductive JSParam
  | nullish
  | obj (o : ParamsObj)
  | func
deriving DecidableEq, Repr

/-- State of one proxy object.  events is the emitter listener table
restricted to listeners installed by client code (count per event
name, insertion ordered, no zero entries); alive records whether the
two internal newListener/removeListener handlers from the constructor
are still attached; tokens is the subscription ledger (line 46);
pending holds the completion callbacks handed to the gateway and not
yet invoked. -/
structure ProxyState where
  events : List (String × Nat)
  alive : Bool
  tokens : List (String × String)
  pending : List PendingCb
deriving DecidableEq, Repr

/-- State right after the constructor ran: no client listeners, the
internal handlers attached, empty ledger, no outstanding RPC. -/
def initialState : ProxyState :=
  { events := [], alive := true, tokens := [], pending := [] }

/-- Number of client-installed listeners for an event. -/
def appCount (s : ProxyState) (event : String) : Nat :=
  (jsGet s.events event).getD 0

/-- EventEmitter.listenerCount(self, event) as called at lines 50 and
75: all stored listeners, which adds the internal handler for the
newListener and removeListener events while it is attached. -/
def listenerCount (s : ProxyState) (event : String) : Nat :=
  appCount s event +
    (if s.alive = true ∧ (event = "newListener" ∨ event = "removeListener")
     then 1 else 0)

/-- Body of the newListener handler (lines 70-91), run before the new
listener is stored, so listenerCount is the pre-addition count.
Returns the emissions and the completion callbacks handed out. -/
def newListenerHandler (s : ProxyState) (event : String) :
    List Output × List PendingCb :=
  if event = "release" then ([], [])
  else if event = "_rpc" then ([], [])
  else if listenerCount s event = 0 then
    ([Output.rpc (RpcRequest.subscribe event)], [PendingCb.subscribeCb event])
  else ([], [])

/-- Body of the removeListener handler (lines 48-68), run after the
listener was removed, so listenerCount is the post-removal count.
Note there is no exclusion of the release and rpc event names here. -/
def removeListenerHandler (s : ProxyState) (event : String) :
    List Output × List PendingCb :=
  if listenerCount s event = 0 then
    ([Output.rpc (RpcRequest.unsubscribe (jsGet s.tokens event))],
     [PendingCb.unsubscribeCb event])
  else ([], [])

/-- Increment the stored listener count for an event (emitter add). -/
def bump (l : List (String × Nat)) (k : String) : List (String × Nat) :=
  jsSet l k ((jsGet l k).getD 0 + 1)

/-- Decrement the stored listener count for an event, deleting the key
when the last listener goes away (emitter removeListener). -/
def removeOne (l : List (String × Nat)) (k : String) : List (String × Nat) :=
  match jsGet l k with
  | some 1 => jsDelete l k
  | some (n + 2) => jsSet l k (n + 1)
  | _ => l

/-- Remove the first occurrence of a completion callback from the
outstanding list (a callback fires at most once). -/
def removeFirst : List PendingCb → PendingCb → List PendingCb
  | [], _ => []
  | x :: rest, c => if x = c then rest else x :: removeFirst rest c

/-- Event keys processed by removeAllListeners during the release
completion (lines 150-153) for which the still-attached internal
removeListener handler observes a post-removal count of zero and hence
emits an unsubscribe request: the internal newListener handler key is
removed first, then every client event key in insertion order; the
removeListener key is processed last, when no removeListener listener
remains to observe it. -/
def teardownKeys (events : List (String × Nat)) : List String :=
  "newListener" ::
    (events.map Prod.fst).filter
      (fun k => (k != "newListener") && (k != "removeListener"))

/-- Operations on a proxy: client listener addition and removal,
invoke, release, and the gateway invoking one of the four completion
callbacks with its result. -/
inductive Op
  | on (event : String)
  | off (event : String)
  | invoke (method : String) (params : JSParam) (hasCallback : Bool)
  | release
  | completeSubscribe (event : String) (result : Except String String)
  | completeUnsubscribe (event : String) (error : Option String)
  | completeInvoke (hasCallback : Bool) (result : Except String RawResult)
  | completeRelease (error : Option String)

/-- One step of the proxy.  A thrown JS exception is an error value;
every other path returns the successor state and the emitted trace.
Completion steps whose callback is not outstanding do nothing. -/
def step (s : ProxyState) : Op → Except String (ProxyState × List Output)
  | .on event =>
      if s.alive = true then
        .ok ({ s with events := bump s.events event,
                      pending := s.pending ++ (newListenerHandler s event).2 },
             (newListenerHandler s event).1)
      else
        .ok ({ s with events := bump s.events event }, [])
  | .off event =>
      if (jsGet s.events event).getD 0 = 0 then
        .ok (s, [])
      else
        if s.alive = true then
          .ok ({ s with events := removeOne s.events event,
                        pending := s.pending ++
                          (removeListenerHandler
                            { s with events := removeOne s.events event } event).2 },
               (removeListenerHandler
                 { s with events := removeOne s.events event } event).1)
        else
          .ok ({ s with events := removeOne s.events event }, [])
  | .invoke method params hasCallback =>
      match params with
      | .func =>
          if hasCallback then
            .error "Nothing can be defined after the callback"
          else
            .ok ({ s with pending := s.pending ++ [PendingCb.invokeCb true] },
                 [Output.rpc (RpcRequest.invoke method none true)])
      | .obj o =>
          .ok ({ s with pending := s.pending ++ [PendingCb.invokeCb hasCallback] },
               [Output.rpc (RpcRequest.invoke method (some o) hasCallback)])
      | .nullish =>
          .ok ({ s with pending := s.pending ++ [PendingCb.invokeCb hasCallback] },
               [Output.rpc (RpcRequest.invoke method none hasCallback)])
  | .release =>
      .ok ({ s with pending := s.pending ++ [PendingCb.releaseCb] },
           [Output.rpc RpcRequest.release])
  | .completeSubscribe event result =>
      if PendingCb.subscribeCb event ∈ s.pending then
        match result with
        | .error e =>
            .ok ({ s with pending := removeFirst s.pending (PendingCb.subscribeCb event) },
                 [Output.errorEvent e])
        | .ok token =>
            .ok ({ s with pending := removeFirst s.pending (PendingCb.subscribeCb event),
                          tokens := jsSet s.tokens event token }, [])
      else .ok (s, [])
  | .completeUnsubscribe event error =>
      if PendingCb.unsubscribeCb event ∈ s.pending then
        match error with
        | some e =>
            .ok ({ s with pending := removeFirst s.pending (PendingCb.unsubscribeCb event) },
                 [Output.errorEvent e])
        | none =>
            .ok ({ s with pending := removeFirst s.pending (PendingCb.unsubscribeCb event),
                          tokens := jsDelete s.tokens event }, [])
      else .ok (s, [])
  | .completeInvoke hasCallback result =>
      if PendingCb.invokeCb hasCallback ∈ s.pending then
        if hasCallback then
          match result with
          | .error e =>
              .ok ({ s with pending := removeFirst s.pending (PendingCb.invokeCb hasCallback) },
                   [Output.cbError e])
          | .ok r =>
              .ok ({ s with pending := removeFirst s.pending (PendingCb.invokeCb hasCallback) },
                   [Output.cbValue r.value])
        else
          .ok ({ s with pending := removeFirst s.pending (PendingCb.invokeCb hasCallback) },
               [])
      else .ok (s, [])
  | .completeRelease error =>
      if PendingCb.releaseCb ∈ s.pending then
        match error with
        | some e =>
            .ok ({ s with pending := removeFirst s.pending PendingCb.releaseCb },
                 [Output.log e])
        | none =>
            if s.alive = true then
              .ok ({ s with events := [], alive := false,
                            pending := removeFirst s.pending PendingCb.releaseCb ++
                              (teardownKeys s.events).map PendingCb.unsubscribeCb },
                   Output.releaseEvent ::
                     (teardownKeys s.events).map
                       (fun k => Output.rpc (RpcRequest.unsubscribe (jsGet s.tokens k))))
            else
              .ok ({ s with events := [],
                            pending := removeFirst s.pending PendingCb.releaseCb },
                   [Output.releaseEvent])
      else .ok (s, [])

/-- Total form of step: a thrown exception leaves the state unchanged
(the caller catches it) and emits nothing. -/
def stepTotal (s : ProxyState) (op : Op) : ProxyState × List Output :=
  match step s op with
  | .ok r => r
  | .error _ => (s, [])

/-- Run a sequence of operations from a state. -/
def runState (s : ProxyState) : List Op → ProxyState
  | [] => s
  | op :: ops => runState (stepTotal s op).1 ops

/-- States reachable from construction. -/
def Reachable (s : ProxyState) : Prop :=
  ∃ ops, runState initialState ops = s

/-! Basic lemmas about the JS object operations. -/

theorem jsGet_jsSet_self {α : Type} (l : List (String × α)) (k : String) (v : α) :
    jsGet (jsSet l k v) k = some v := by
  induction l with
  | nil => simp [jsGet, jsSet]
  | cons kv rest ih =>
      obtain ⟨k2, v2⟩ := kv
      by_cases h : k2 = k
      · simp [jsGet, jsSet, h]
      · simp [jsGet, jsSet, h, ih]

theorem jsGet_jsSet_ne {α : Type} (l : List (String × α)) (k k2 : String) (v : α)
    (h : k2 ≠ k) : jsGet (jsSet l k v) k2 = jsGet l k2 := by
  induction l with
  | nil => simp [jsGet, jsSet, Ne.symm h]
  | cons kv rest ih =>
      obtain ⟨k3, v3⟩ := kv
      by_cases h3 : k3 = k
      · subst h3
        simp [jsGet, jsSet, Ne.symm h]
      · simp only [jsSet, if_neg h3]
        by_cases h4 : k3 = k2
        · simp [jsGet, h4]
        · simp [jsGet, h4, ih]

theorem jsGet_jsDelete_self {α : Type} (l : List (String × α)) (k : String) :
    jsGet (jsDelete l k) k = none := by
  induction l with
  | nil => simp [jsGet, jsDelete]
  | cons kv rest ih =>
      obtain ⟨k2, v2⟩ := kv
      by_cases h : k2 = k
      · simp [jsDelete, h, ih]
      · simp [jsGet, jsDelete, h, ih]

theorem jsGet_jsDelete_ne {α : Type} (l : List (String × α)) (k k2 : String)
    (h : k2 ≠ k) : jsGet (jsDelete l k) k2 = jsGet l k2 := by
  induction l with
  | nil => simp [jsDelete]
  | cons kv rest ih =>
      obtain ⟨k3, v3⟩ := kv
      by_cases h3 : k3 = k
      · subst h3
        simp [jsGet, jsDelete, Ne.symm h, ih]
      · simp only [jsDelete, if_neg h3]
        by_cases h4 : k3 = k2
        · simp [jsGet, h4]
        · simp [jsGet, h4, ih]

theorem jsGet_map {α β : Type} (f : α → β) (l : List (String × α)) (k : String) :
    jsGet (l.map (fun kv => (kv.1, f kv.2))) k = (jsGet l k).map f := by
  induction l with
  | nil => simp [jsGet]
  | cons kv rest ih =>
      obtain ⟨k2, v2⟩ := kv
      by_cases h : k2 = k
      · simp [jsGet, h]
      · simp [jsGet, h, ih]

theorem mem_of_mem_removeFirst (l : List PendingCb) (c x : PendingCb)
    (h : x ∈ removeFirst l c) : x ∈ l := by
  induction l with
  | nil => simp [removeFirst] at h
  | cons y rest ih =>
      by_cases hy : y = c
      · simp only [removeFirst, if_pos hy] at h
        exact List.mem_cons_of_mem y h
      · simp only [removeFirst, if_neg hy, List.mem_cons] at h
        rcases h with h | h
        · exact h ▸ List.mem_cons_self y rest
        · exact List.mem_cons_of_mem y (ih h)

theorem removeFirst_append_singleton (l : List PendingCb) (c : PendingCb)
    (h : c ∉ l) : removeFirst (l ++ [c]) c = l := by
  induction l with
  | nil => simp [removeFirst]
  | cons y rest ih =>
      have hy : y ≠ c := fun he => h (he ▸ List.mem_cons_self y rest)
      have hr : c ∉ rest := fun hc => h (List.mem_cons_of_mem y hc)
      simp [removeFirst, hy, ih hr]

/-! Lemmas about listener-count bookkeeping. -/

theorem jsGet_bump_self (l : List (String × Nat)) (k : String) :
    jsGet (bump l k) k = some ((jsGet l k).getD 0 + 1) :=
  jsGet_jsSet_self l k _

theorem jsGet_bump_ne (l : List (String × Nat)) (k k2 : String) (h : k2 ≠ k) :
    jsGet (bump l k) k2 = jsGet l k2 :=
  jsGet_jsSet_ne l k k2 _ h

theorem jsGet_removeOne_self (l : List (String × Nat)) (k : String) (n : Nat)
    (h : jsGet l k = some (n + 1)) :
    (jsGet (removeOne l k) k).getD 0 = n := by
  match n, h with
  | 0, h => simp [removeOne, h, jsGet_jsDelete_self]
  | m + 1, h => simp [removeOne, h, jsGet_jsSet_self]

theorem jsGet_removeOne_ne (l : List (String × Nat)) (k k2 : String) (h : k2 ≠ k) :
    jsGet (removeOne l k) k2 = jsGet l k2 := by
  unfold removeOne
  match jsGet l k with
  | none => rfl
  | some 0 => rfl
  | some 1 => exact jsGet_jsDelete_ne l k k2 h
  | some (m + 2) => exact jsGet_jsSet_ne l k k2 _ h

/-- For event names outside the two emitter bookkeeping events, the
emitter count is just the client listener count. -/
theorem listenerCount_of_plain (s : ProxyState) (E : String)
    (h1 : E ≠ "newListener") (h2 : E ≠ "removeListener") :
    listenerCount s E = appCount s E := by
  simp [listenerCount, h1, h2]

/-! Characterizations of single steps under explicit conditions. -/

theorem stepTotal_on_subscribe (s : ProxyState) (E : String)
    (halive : s.alive = true) (h1 : E ≠ "release") (h2 : E ≠ "_rpc")
    (h3 : listenerCount s E = 0) :
    stepTotal s (.on E) =
      ({ s with events := bump s.events E,
                pending := s.pending ++ [PendingCb.subscribeCb E] },
       [Output.rpc (RpcRequest.subscribe E)]) := by
  simp [stepTotal, step, newListenerHandler, halive, h1, h2, h3]

theorem stepTotal_on_quiet (s : ProxyState) (E : String)
    (halive : s.alive = true)
    (h : E = "release" ∨ E = "_rpc" ∨ listenerCount s E ≠ 0) :
    stepTotal s (.on E) = ({ s with events := bump s.events E }, []) := by
  rcases h with h | h | h
  · simp [stepTotal, step, newListenerHandler, halive, h]
  · simp [stepTotal, step, newListenerHandler, halive, h]
  · by_cases h1 : E = "release"
    · simp [stepTotal, step, newListenerHandler, halive, h1]
    · by_cases h2 : E = "_rpc"
      · simp [stepTotal, step, newListenerHandler, halive, h1, h2]
      · simp [stepTotal, step, newListenerHandler, halive, h1, h2, h]

theorem stepTotal_off_absent (s : ProxyState) (E : String)
    (h : (jsGet s.events E).getD 0 = 0) :
    stepTotal s (.off E) = (s, []) := by
  simp [stepTotal, step, h]

theorem stepTotal_off_unsub (s : ProxyState) (E : String) (n : Nat)
    (halive : s.alive = true) (h : jsGet s.events E = some (n + 1))
    (hz : listenerCount { s with events := removeOne s.events E } E = 0) :
    stepTotal s (.off E) =
      ({ s with events := removeOne s.events E,
                pending := s.pending ++ [PendingCb.unsubscribeCb E] },
       [Output.rpc (RpcRequest.unsubscribe (jsGet s.tokens E))]) := by
  simp only [halive] at hz
  simp [stepTotal, step, h, halive, removeListenerHandler, hz]

theorem stepTotal_off_quiet (s : ProxyState) (E : String) (n : Nat)
    (halive : s.alive = true) (h : jsGet s.events E = some (n + 1))
    (hz : listenerCount { s with events := removeOne s.events E } E ≠ 0) :
    stepTotal s (.off E) = ({ s with events := removeOne s.events E }, []) := by
  simp only [halive] at hz
  simp [stepTotal, step, h, halive, removeListenerHandler, hz]

theorem stepTotal_completeSubscribe_ok (s : ProxyState) (E t : String)
    (h : PendingCb.subscribeCb E ∈ s.pending) :
    stepTotal s (.completeSubscribe E (.ok t)) =
      ({ s with pending := removeFirst s.pending (PendingCb.subscribeCb E),
                tokens := jsSet s.tokens E t }, []) := by
  simp [stepTotal, step, h]

theorem stepTotal_completeSubscribe_error (s : ProxyState) (E e : String)
    (h : PendingCb.subscribeCb E ∈ s.pending) :
    stepTotal s (.completeSubscribe E (.error e)) =
      ({ s with pending := removeFirst s.pending (PendingCb.subscribeCb E) },
       [Output.errorEvent e]) := by
  simp [stepTotal, step, h]

theorem stepTotal_completeSubscribe_skip (s : ProxyState) (E : String)
    (r : Except String String) (h : PendingCb.subscribeCb E ∉ s.pending) :
    stepTotal s (.completeSubscribe E r) = (s, []) := by
  simp [stepTotal, step, h]

theorem stepTotal_completeUnsubscribe_ok (s : ProxyState) (E : String)
    (h : PendingCb.unsubscribeCb E ∈ s.pending) :
    stepTotal s (.completeUnsubscribe E none) =
      ({ s with pending := removeFirst s.pending (PendingCb.unsubscribeCb E),
                tokens := jsDelete s.tokens E }, []) := by
  simp [stepTotal, step, h]

theorem stepTotal_completeUnsubscribe_error (s : ProxyState) (E e : String)
    (h : PendingCb.unsubscribeCb E ∈ s.pending) :
    stepTotal s (.completeUnsubscribe E (some e)) =
      ({ s with pending := removeFirst s.pending (PendingCb.unsubscribeCb E) },
       [Output.errorEvent e]) := by
  simp [stepTotal, step, h]

theorem stepTotal_completeUnsubscribe_skip (s : ProxyState) (E : String)
    (r : Option String) (h : PendingCb.unsubscribeCb E ∉ s.pending) :
    stepTotal s (.completeUnsubscribe E r) = (s, []) := by
  simp [stepTotal, step, h]

/-! The subscription ledger invariant on settled histories. -/

/-- Completion callbacks belonging to the subscription protocol. -/
def isSubscriptionCb : PendingCb → Bool
  | .subscribeCb _ => true
  | .unsubscribeCb _ => true
  | .invokeCb _ => false
  | .releaseCb => false

/-- No subscribe or unsubscribe completion callback is outstanding. -/
def noPendingSubUnsub (s : ProxyState) : Prop :=
  ∀ c ∈ s.pending, isSubscriptionCb c = false

/-- Event types subject to remote subscription bookkeeping: neither of
the two names excluded at lines 72-73 nor the two emitter bookkeeping
events, for which the constructor itself keeps a listener attached so
that a client listener is never the first one. -/
def goodEventType (E : String) : Prop :=
  E ≠ "release" ∧ E ≠ "_rpc" ∧ E ≠ "newListener" ∧ E ≠ "removeListener"

/-- Histories in which every subscribe and unsubscribe request settles
successfully before the next operation runs and release is never
performed: construction, then listener additions whose possible
subscribe request immediately succeeds, listener removals whose
possible unsubscribe request immediately succeeds, and invokes whose
request completes with an arbitrary outcome. -/
inductive Settled : ProxyState → Prop
  | init : Settled initialState
  | onStep (s : ProxyState) (E t : String) : Settled s →
      Settled (stepTotal (stepTotal s (.on E)).1 (.completeSubscribe E (.ok t))).1
  | offStep (s : ProxyState) (E : String) : Settled s →
      Settled (stepTotal (stepTotal s (.off E)).1 (.completeUnsubscribe E none)).1
  | invokeStep (s : ProxyState) (m : String) (p : JSParam) (c : Bool)
      (r : Except String RawResult) : Settled s →
      Settled (stepTotal (stepTotal s (.invoke m p c)).1 (.completeInvoke c r)).1

/-- The strengthened induction hypothesis: the proxy is not released,
no subscription RPC is in flight, and the ledger matches the client
listener counts on all subscribable event types. -/
def ledgerInvariant (s : ProxyState) : Prop :=
  s.alive = true ∧ noPendingSubUnsub s ∧
    ∀ E, goodEventType E → ((jsGet s.tokens E).isSome = true ↔ 0 < appCount s E)

theorem runState_append (s : ProxyState) (l1 l2 : List Op) :
    runState s (l1 ++ l2) = runState (runState s l1) l2 := by
  induction l1 generalizing s with
  | nil => rfl
  | cons op rest ih => simp [runState, ih]

/-- Every settled state is reachable. -/
theorem settled_reachable (s : ProxyState) (hs : Settled s) : Reachable s := by
  induction hs with
  | init => exact ⟨[], rfl⟩
  | onStep s E t hs ih =>
      obtain ⟨ops, hops⟩ := ih
      exact ⟨ops ++ [.on E, .completeSubscribe E (.ok t)], by
        rw [runState_append, hops]; rfl⟩
  | offStep s E hs ih =>
      obtain ⟨ops, hops⟩ := ih
      exact ⟨ops ++ [.off E, .completeUnsubscribe E none], by
        rw [runState_append, hops]; rfl⟩
  | invokeStep s m p c r hs ih =>
      obtain ⟨ops, hops⟩ := ih
      exact ⟨ops ++ [.invoke m p c, .completeInvoke c r], by
        rw [runState_append, hops]; rfl⟩

/-! Composite descriptions of the settled macro steps. -/

theorem settledOn_eq_subscribe (s : ProxyState) (E t : String)
    (halive : s.alive = true) (h1 : E ≠ "release") (h2 : E ≠ "_rpc")
    (h3 : listenerCount s E = 0)
    (hns : PendingCb.subscribeCb E ∉ s.pending) :
    (stepTotal (stepTotal s (.on E)).1 (.completeSubscribe E (.ok t))).1 =
      { s with events := bump s.events E, tokens := jsSet s.tokens E t } := by
  rw [stepTotal_on_subscribe s E halive h1 h2 h3]
  rw [stepTotal_completeSubscribe_ok _ E t (by simp)]
  simp [removeFirst_append_singleton s.pending _ hns]

theorem settledOn_eq_quiet (s : ProxyState) (E t : String)
    (halive : s.alive = true)
    (h : E = "release" ∨ E = "_rpc" ∨ listenerCount s E ≠ 0)
    (hns : PendingCb.subscribeCb E ∉ s.pending) :
    (stepTotal (stepTotal s (.on E)).1 (.completeSubscribe E (.ok t))).1 =
      { s with events := bump s.events E } := by
  rw [stepTotal_on_quiet s E halive h]
  exact congrArg Prod.fst
    (stepTotal_completeSubscribe_skip { s with events := bump s.events E } E (.ok t) hns)

theorem settledOff_eq_absent (s : ProxyState) (E : String)
    (h : (jsGet s.events E).getD 0 = 0)
    (hns : PendingCb.unsubscribeCb E ∉ s.pending) :
    (stepTotal (stepTotal s (.off E)).1 (.completeUnsubscribe E none)).1 = s := by
  rw [stepTotal_off_absent s E h]
  rw [stepTotal_completeUnsubscribe_skip s E none hns]

theorem settledOff_eq_unsub (s : ProxyState) (E : String) (n : Nat)
    (halive : s.alive = true) (hjs : jsGet s.events E = some (n + 1))
    (hz : listenerCount { s with events := removeOne s.events E } E = 0)
    (hns : PendingCb.unsubscribeCb E ∉ s.pending) :
    (stepTotal (stepTotal s (.off E)).1 (.completeUnsubscribe E none)).1 =
      { s with events := removeOne s.events E, tokens := jsDelete s.tokens E } := by
  rw [stepTotal_off_unsub s E n halive hjs hz]
  rw [stepTotal_completeUnsubscribe_ok _ E (by simp)]
  simp [removeFirst_append_singleton s.pending _ hns]

theorem settledOff_eq_quiet (s : ProxyState) (E : String) (n : Nat)
    (halive : s.alive = true) (hjs : jsGet s.events E = some (n + 1))
    (hz : listenerCount { s with events := removeOne s.events E } E ≠ 0)
    (hns : PendingCb.unsubscribeCb E ∉ s.pending) :
    (stepTotal (stepTotal s (.off E)).1 (.completeUnsubscribe E none)).1 =
      { s with events := removeOne s.events E } := by
  rw [stepTotal_off_quiet s E n halive hjs hz]
  exact congrArg Prod.fst
    (stepTotal_completeUnsubscribe_skip { s with events := removeOne s.events E } E none hns)

theorem stepTotal_invoke_pendingOnly (s : ProxyState) (m : String)
    (p : JSParam) (c : Bool) :
    ∃ pen, (stepTotal s (.invoke m p c)).1 = { s with pending := pen } ∧
      ∀ x ∈ pen, x ∈ s.pending ∨ isSubscriptionCb x = false := by
  cases p with
  | nullish =>
      refine ⟨s.pending ++ [PendingCb.invokeCb c], rfl, ?_⟩
      intro x hx
      rcases List.mem_append.mp hx with hx | hx
      · exact Or.inl hx
      · simp at hx
        simp [hx, isSubscriptionCb]
  | obj o =>
      refine ⟨s.pending ++ [PendingCb.invokeCb c], rfl, ?_⟩
      intro x hx
      rcases List.mem_append.mp hx with hx | hx
      · exact Or.inl hx
      · simp at hx
        simp [hx, isSubscriptionCb]
  | func =>
      cases c with
      | true => exact ⟨s.pending, rfl, fun x hx => Or.inl hx⟩
      | false =>
          refine ⟨s.pending ++ [PendingCb.invokeCb true], rfl, ?_⟩
          intro x hx
          rcases List.mem_append.mp hx with hx | hx
          · exact Or.inl hx
          · simp at hx
            simp [hx, isSubscriptionCb]

theorem stepTotal_completeInvoke_pendingOnly (s : ProxyState) (c : Bool)
    (r : Except String RawResult) :
    ∃ pen, (stepTotal s (.completeInvoke c r)).1 = { s with pending := pen } ∧
      ∀ x ∈ pen, x ∈ s.pending := by
  by_cases hmem : PendingCb.invokeCb c ∈ s.pending
  · cases c with
    | true =>
        cases r with
        | error e =>
            exact ⟨removeFirst s.pending (PendingCb.invokeCb true),
              by simp [stepTotal, step, hmem],
              fun x hx => mem_of_mem_removeFirst _ _ _ hx⟩
        | ok v =>
            exact ⟨removeFirst s.pending (PendingCb.invokeCb true),
              by simp [stepTotal, step, hmem],
              fun x hx => mem_of_mem_removeFirst _ _ _ hx⟩
    | false =>
        exact ⟨removeFirst s.pending (PendingCb.invokeCb false),
          by simp [stepTotal, step, hmem],
          fun x hx => mem_of_mem_removeFirst _ _ _ hx⟩
  · exact ⟨s.pending, by simp [stepTotal, step, hmem], fun x hx => hx⟩

/-! Model of the constructor property definitions (lines 31-130). -/

/-- A JS property descriptor as produced by Object.defineProperty.
When the descriptor argument carries only a value, the three flags
default to false. -/
structure PropertyDescriptor (α : Type) where
  value : α
  writable : Bool
  enumerable : Bool
  configurable : Bool
deriving DecidableEq, Repr

/-- Object.defineProperty(this, key, with the descriptor holding only
value v) as called at lines 38, 105, 114 and 125: all flags default to
false. -/
def defineProperty {α : Type} (v : α) : PropertyDescriptor α :=
  { value := v, writable := false, enumerable := false, configurable := false }

/-- Reference to an object from inside the constructor: the object
under construction itself, or some other object. -/
inductive ObjRef
  | selfRef
  | external (name : String)
deriving DecidableEq, Repr

/-- Result of the property-definition part of the constructor. -/
structure ConstructedObject where
  properties : List (String × PropertyDescriptor String)
  idProp : PropertyDescriptor String
  parentProp : PropertyDescriptor ObjRef
  pipelineProp : PropertyDescriptor ObjRef
  creationEventTarget : ObjRef
  creationEventName : String
deriving DecidableEq, Repr

/-- The constructor body restricted to its property definitions: one
descriptor per supplied params key (line 38), the id, parent and
pipeline descriptors (lines 105-125, with pipeline falling back to the
object itself when the argument is missing), and the creation
announcement emitted on the parent (line 129). -/
def construct (id : String) (parent : ObjRef) (pipeline : Option ObjRef)
    (params : List (String × String)) : ConstructedObject :=
  { properties := params.map (fun kv => (kv.1, defineProperty kv.2)),
    idProp := defineProperty id,
    parentProp := defineProperty parent,
    pipelineProp := defineProperty (pipeline.getD ObjRef.selfRef),
    creationEventTarget := parent,
    creationEventName := "mediaObject" }

/-- The ledger invariant holds in every settled state. -/
theorem settled_ledgerInvariant (s : ProxyState) (hs : Settled s) :
    ledgerInvariant s := by
  induction hs with
  | init =>
      refine ⟨rfl, ?_, ?_⟩
      · intro c hc
        simp [initialState] at hc
      · intro E hE
        simp [initialState, appCount, jsGet]
  | onStep s E t hs ih =>
      obtain ⟨halive, hpend, htok⟩ := ih
      have hns : PendingCb.subscribeCb E ∉ s.pending := by
        intro hmem
        have := hpend _ hmem
        simp [isSubscriptionCb] at this
      by_cases hsub : E ≠ "release" ∧ E ≠ "_rpc" ∧ listenerCount s E = 0
      · obtain ⟨h1, h2, h3⟩ := hsub
        rw [settledOn_eq_subscribe s E t halive h1 h2 h3 hns]
        refine ⟨halive, hpend, ?_⟩
        intro E2 hE2
        show (jsGet (jsSet s.tokens E t) E2).isSome = true ↔
          0 < (jsGet (bump s.events E) E2).getD 0
        by_cases hEE : E2 = E
        · subst hEE
          rw [jsGet_jsSet_self, jsGet_bump_self]
          simp
        · rw [jsGet_jsSet_ne s.tokens E E2 t hEE, jsGet_bump_ne s.events E E2 hEE]
          exact htok E2 hE2
      · have h : E = "release" ∨ E = "_rpc" ∨ listenerCount s E ≠ 0 := by
          by_cases h1 : E = "release"
          · exact Or.inl h1
          · by_cases h2 : E = "_rpc"
            · exact Or.inr (Or.inl h2)
            · exact Or.inr (Or.inr (fun hc => hsub ⟨h1, h2, hc⟩))
        rw [settledOn_eq_quiet s E t halive h hns]
        refine ⟨halive, hpend, ?_⟩
        intro E2 hE2
        show (jsGet s.tokens E2).isSome = true ↔
          0 < (jsGet (bump s.events E) E2).getD 0
        by_cases hEE : E2 = E
        · subst hEE
          have hcnt : listenerCount s E2 ≠ 0 := by
            rcases h with h | h | h
            · exact absurd h hE2.1
            · exact absurd h hE2.2.1
            · exact h
          have happ : 0 < appCount s E2 := by
            rw [listenerCount_of_plain s E2 hE2.2.2.1 hE2.2.2.2] at hcnt
            omega
          have hsome := (htok E2 hE2).mpr happ
          rw [jsGet_bump_self]
          simp [hsome]
        · rw [jsGet_bump_ne s.events E E2 hEE]
          exact htok E2 hE2
  | offStep s E hs ih =>
      obtain ⟨halive, hpend, htok⟩ := ih
      have hns : PendingCb.unsubscribeCb E ∉ s.pending := by
        intro hmem
        have := hpend _ hmem
        simp [isSubscriptionCb] at this
      by_cases h0 : (jsGet s.events E).getD 0 = 0
      · rw [settledOff_eq_absent s E h0 hns]
        exact ⟨halive, hpend, htok⟩
      · obtain ⟨n, hjs⟩ : ∃ n, jsGet s.events E = some (n + 1) := by
          cases hj : jsGet s.events E with
          | none => rw [hj] at h0; simp at h0
          | some k =>
              match k, hj with
              | 0, hj => rw [hj] at h0; simp at h0
              | n + 1, hj => exact ⟨n, rfl⟩
        by_cases hz : listenerCount { s with events := removeOne s.events E } E = 0
        · rw [settledOff_eq_unsub s E n halive hjs hz hns]
          refine ⟨halive, hpend, ?_⟩
          intro E2 hE2
          show (jsGet (jsDelete s.tokens E) E2).isSome = true ↔
            0 < (jsGet (removeOne s.events E) E2).getD 0
          by_cases hEE : E2 = E
          · subst hEE
            rw [jsGet_jsDelete_self, jsGet_removeOne_self s.events E2 n hjs]
            have hn0 : n = 0 := by
              rw [listenerCount_of_plain _ E2 hE2.2.2.1 hE2.2.2.2] at hz
              rw [show appCount { s with events := removeOne s.events E2 } E2 =
                (jsGet (removeOne s.events E2) E2).getD 0 from rfl,
                jsGet_removeOne_self s.events E2 n hjs] at hz
              exact hz
            simp [hn0]
          · rw [jsGet_jsDelete_ne s.tokens E E2 hEE,
              jsGet_removeOne_ne s.events E E2 hEE]
            exact htok E2 hE2
        · rw [settledOff_eq_quiet s E n halive hjs hz hns]
          refine ⟨halive, hpend, ?_⟩
          intro E2 hE2
          show (jsGet s.tokens E2).isSome = true ↔
            0 < (jsGet (removeOne s.events E) E2).getD 0
          by_cases hEE : E2 = E
          · subst hEE
            rw [jsGet_removeOne_self s.events E2 n hjs]
            have hpos : 0 < n := by
              rw [listenerCount_of_plain _ E2 hE2.2.2.1 hE2.2.2.2] at hz
              rw [show appCount { s with events := removeOne s.events E2 } E2 =
                (jsGet (removeOne s.events E2) E2).getD 0 from rfl,
                jsGet_removeOne_self s.events E2 n hjs] at hz
              omega
            have hsome : (jsGet s.tokens E2).isSome = true := by
              apply (htok E2 hE2).mpr
              show 0 < (jsGet s.events E2).getD 0
              rw [hjs]
              simp
            simp [hsome, hpos]
          · rw [jsGet_removeOne_ne s.events E E2 hEE]
            exact htok E2 hE2
  | invokeStep s m p c r hs ih =>
      obtain ⟨halive, hpend, htok⟩ := ih
      obtain ⟨p1, he1, hm1⟩ := stepTotal_invoke_pendingOnly s m p c
      rw [he1]
      obtain ⟨p2, he2, hm2⟩ :=
        stepTotal_completeInvoke_pendingOnly { s with pending := p1 } c r
      rw [he2]
      refine ⟨halive, ?_, htok⟩
      intro x hx
      rcases hm1 x (hm2 x hx) with hmem | hflat
      · exact hpend x hmem
      · exact hflat

/-- Client listeners for an event with a positive count are stored
with an explicit successor value. -/
theorem appCount_pos_exists (s : ProxyState) (E : String)
    (h : 0 < appCount s E) : ∃ n, jsGet s.events E = some (n + 1) := by
  cases hj : jsGet s.events E with
  | none =>
      unfold appCount at h
      rw [hj] at h
      simp at h
  | some k =>
      match k, hj with
      | 0, hj =>
          unfold appCount at h
          rw [hj] at h
          simp at h
      | n + 1, hj => exact ⟨n, rfl⟩

/-! Claim theorems and witnesses. -/

/-- A concrete proxy state used by the witnesses: two client listeners
for X (ledger token tok7), one client listener for release, and one
outstanding completion callback of every kind for the event Y. -/
def witnessState : ProxyState :=
  { events := [("X", 2), ("release", 1)],
    alive := true,
    tokens := [("X", "tok7")],
    pending := [PendingCb.subscribeCb "Y", PendingCb.unsubscribeCb "Y",
                PendingCb.invokeCb true, PendingCb.invokeCb false,
                PendingCb.releaseCb] }

/-- C1: on a proxy whose internal handlers are attached (not yet torn
down by release), for an event type E outside release and the rpc
gateway event: attaching the first listener (count transition zero to
one) emits exactly one subscribe request with payload type E;
attaching a listener while the count is already positive emits
nothing; a successful subscribe completion stores the returned token
in the ledger; removing the last listener (transition one to zero)
emits exactly one unsubscribe request carrying exactly the ledger
token for E; and removing a listener while the remaining count stays
positive emits nothing. -/
theorem c1_refcounted_subscription (s : ProxyState) (E t : String)
    (halive : s.alive = true) :
    (E ≠ "release" → E ≠ "_rpc" → listenerCount s E = 0 →
      (stepTotal s (.on E)).2 = [Output.rpc (RpcRequest.subscribe E)]) ∧
    (0 < listenerCount s E → (stepTotal s (.on E)).2 = []) ∧
    (PendingCb.subscribeCb E ∈ s.pending →
      jsGet (stepTotal s (.completeSubscribe E (.ok t))).1.tokens E = some t) ∧
    (listenerCount s E = 1 → 0 < appCount s E →
      (stepTotal s (.off E)).2 =
        [Output.rpc (RpcRequest.unsubscribe (jsGet s.tokens E))]) ∧
    (2 ≤ listenerCount s E → 0 < appCount s E → (stepTotal s (.off E)).2 = []) := by
  refine ⟨?_, ?_, ?_, ?_, ?_⟩
  · intro h1 h2 h3
    rw [stepTotal_on_subscribe s E halive h1 h2 h3]
  · intro h
    rw [stepTotal_on_quiet s E halive (Or.inr (Or.inr (Nat.pos_iff_ne_zero.mp h)))]
  · intro hmem
    rw [stepTotal_completeSubscribe_ok s E t hmem]
    exact jsGet_jsSet_self s.tokens E t
  · intro hone happ
    by_cases hcond : s.alive = true ∧ (E = "newListener" ∨ E = "removeListener")
    · exfalso
      simp only [listenerCount, if_pos hcond] at hone
      omega
    · have hEnl : E ≠ "newListener" ∧ E ≠ "removeListener" := by
        constructor <;> intro he <;> exact hcond ⟨halive, by simp [he]⟩
      rw [listenerCount_of_plain s E hEnl.1 hEnl.2] at hone
      have hjs : jsGet s.events E = some 1 := by
        unfold appCount at hone
        cases hj : jsGet s.events E with
        | none => rw [hj] at hone; simp at hone
        | some k =>
            rw [hj] at hone
            simp at hone
            rw [hone]
      have hz : listenerCount { s with events := removeOne s.events E } E = 0 := by
        rw [listenerCount_of_plain _ E hEnl.1 hEnl.2]
        show (jsGet (removeOne s.events E) E).getD 0 = 0
        exact jsGet_removeOne_self s.events E 0 hjs
      rw [stepTotal_off_unsub s E 0 halive hjs hz]
  · intro h2 happ
    obtain ⟨n, hjs⟩ := appCount_pos_exists s E happ
    have hz : listenerCount { s with events := removeOne s.events E } E ≠ 0 := by
      by_cases hcond : s.alive = true ∧ (E = "newListener" ∨ E = "removeListener")
      · rcases hcond.2 with he | he <;> subst he <;>
          simp [listenerCount, halive]
      · have hEnl : E ≠ "newListener" ∧ E ≠ "removeListener" := by
          constructor <;> intro he <;> exact hcond ⟨halive, by simp [he]⟩
        rw [listenerCount_of_plain s E hEnl.1 hEnl.2] at h2
        rw [listenerCount_of_plain _ E hEnl.1 hEnl.2]
        show (jsGet (removeOne s.events E) E).getD 0 ≠ 0
        rw [jsGet_removeOne_self s.events E n hjs]
        unfold appCount at h2
        rw [hjs] at h2
        simp at h2
        omega
    rw [stepTotal_off_quiet s E n halive hjs hz]

/-- Witness for C1 at concrete states and event types. -/
theorem c1_refcounted_subscription_witness :
    (stepTotal witnessState (.on "Z")).2 =
      [Output.rpc (RpcRequest.subscribe "Z")] ∧
    (stepTotal witnessState (.on "X")).2 = [] ∧
    jsGet (stepTotal witnessState
        (.completeSubscribe "Y" (.ok "tok9"))).1.tokens "Y" = some "tok9" ∧
    (stepTotal witnessState (.off "release")).2 =
      [Output.rpc (RpcRequest.unsubscribe none)] ∧
    (stepTotal witnessState (.off "X")).2 = [] := by
  refine ⟨(c1_refcounted_subscription witnessState "Z" "tok9" rfl).1
            (by decide) (by decide) (by decide),
          (c1_refcounted_subscription witnessState "X" "tok9" rfl).2.1 (by decide),
          (c1_refcounted_subscription witnessState "Y" "tok9" rfl).2.2.1 (by decide),
          ?_,
          (c1_refcounted_subscription witnessState "X" "tok9" rfl).2.2.2.2
            (by decide) (by decide)⟩
  exact (c1_refcounted_subscription witnessState "release" "tok9" rfl).2.2.2.1
    (by decide) (by decide)

/-- The statement of C2 as claimed: in every reachable state with no
subscribe or unsubscribe completion outstanding, the ledger has an
entry for an event type exactly when the listener count for it is
positive. -/
def C2Statement : Prop :=
  ∀ s, Reachable s → noPendingSubUnsub s →
    ∀ E, ((jsGet s.tokens E).isSome = true ↔ 0 < listenerCount s E)

/-- C2 counterexample: attach one listener for X and let the subscribe
RPC fail.  The resulting state is reachable and has no subscription
RPC outstanding, the listener count for X is one, yet the ledger has
no entry for X, refuting the claimed equivalence. -/
theorem c2_ledger_iff_counterexample : ¬ C2Statement := by
  intro h
  have hr : Reachable (runState initialState
      [Op.on "X", Op.completeSubscribe "X" (Except.error "boom")]) := ⟨_, rfl⟩
  exact absurd (h _ hr (by unfold noPendingSubUnsub; decide) "X") (by decide)

/-- C2 amended: the equivalence does hold for the event types the
subscription protocol manages (outside release, the rpc gateway event
and the two emitter bookkeeping events) in every state reached by a
history in which each subscribe or unsubscribe request completes
successfully before the next operation and release never runs. -/
theorem c2_ledger_matches_settled (s : ProxyState) (E : String)
    (hs : Settled s) (hE : goodEventType E) :
    ((jsGet s.tokens E).isSome = true ↔ 0 < listenerCount s E) := by
  obtain ⟨-, -, htok⟩ := settled_ledgerInvariant s hs
  rw [listenerCount_of_plain s E hE.2.2.1 hE.2.2.2]
  exact htok E hE

/-- Witness for the amended C2 at a concrete settled state. -/
theorem c2_ledger_matches_settled_witness :
    ((jsGet (stepTotal (stepTotal initialState (.on "X")).1
        (.completeSubscribe "X" (.ok "tok1"))).1.tokens "X").isSome = true ↔
      0 < listenerCount (stepTotal (stepTotal initialState (.on "X")).1
        (.completeSubscribe "X" (.ok "tok1"))).1 "X") :=
  c2_ledger_matches_settled _ "X"
    (Settled.onStep initialState "X" "tok1" Settled.init)
    (by unfold goodEventType; decide)

/-- C3: a failed subscribe completion emits exactly one error event
carrying the failure and leaves the whole proxy state, in particular
the ledger, unchanged apart from retiring the completion callback; a
failed unsubscribe completion does the same, so the existing ledger
entry is retained. -/
theorem c3_rpc_failure_atomic (s : ProxyState) (E e : String) :
    (PendingCb.subscribeCb E ∈ s.pending →
      stepTotal s (.completeSubscribe E (.error e)) =
        ({ s with pending := removeFirst s.pending (PendingCb.subscribeCb E) },
         [Output.errorEvent e])) ∧
    (PendingCb.unsubscribeCb E ∈ s.pending →
      stepTotal s (.completeUnsubscribe E (some e)) =
        ({ s with pending := removeFirst s.pending (PendingCb.unsubscribeCb E) },
         [Output.errorEvent e])) :=
  ⟨fun h => stepTotal_completeSubscribe_error s E e h,
   fun h => stepTotal_completeUnsubscribe_error s E e h⟩

/-- Witness for C3 at a concrete state. -/
theorem c3_rpc_failure_atomic_witness :
    stepTotal witnessState (.completeSubscribe "Y" (.error "err")) =
      ({ witnessState with
          pending := removeFirst witnessState.pending (PendingCb.subscribeCb "Y") },
       [Output.errorEvent "err"]) ∧
    stepTotal witnessState (.completeUnsubscribe "Y" (some "err")) =
      ({ witnessState with
          pending := removeFirst witnessState.pending (PendingCb.unsubscribeCb "Y") },
       [Output.errorEvent "err"]) :=
  ⟨(c3_rpc_failure_atomic witnessState "Y" "err").1 (by decide),
   (c3_rpc_failure_atomic witnessState "Y" "err").2 (by decide)⟩

/-- C4: invoke with a params object and a callback emits one invoke
request with payload operation and operationParams and a wrapped
callback; invoke without params emits the payload without an
operationParams entry; a successful completion with raw result value v
calls the user callback with the unwrapped v alone, and a failed
completion forwards the error unchanged; and invoke leaves the
listener table, the ledger and the liveness of the proxy untouched. -/
theorem c4_invoke_contract (s : ProxyState) (m : String) (p : ParamsObj)
    (v : Int) (e : String) :
    step s (.invoke m (.obj p) true) =
      .ok ({ s with pending := s.pending ++ [PendingCb.invokeCb true] },
           [Output.rpc (RpcRequest.invoke m (some p) true)]) ∧
    step s (.invoke m .nullish true) =
      .ok ({ s with pending := s.pending ++ [PendingCb.invokeCb true] },
           [Output.rpc (RpcRequest.invoke m none true)]) ∧
    (PendingCb.invokeCb true ∈ s.pending →
      (stepTotal s (.completeInvoke true (.ok ⟨v⟩))).2 = [Output.cbValue v] ∧
      (stepTotal s (.completeInvoke true (.error e))).2 = [Output.cbError e]) ∧
    (stepTotal s (.invoke m (.obj p) true)).1.events = s.events ∧
    (stepTotal s (.invoke m (.obj p) true)).1.tokens = s.tokens ∧
    (stepTotal s (.invoke m (.obj p) true)).1.alive = s.alive := by
  refine ⟨rfl, rfl, ?_, rfl, rfl, rfl⟩
  intro h
  exact ⟨by simp [stepTotal, step, h], by simp [stepTotal, step, h]⟩

/-- Witness for C4 at a concrete state. -/
theorem c4_invoke_contract_witness :
    step witnessState (.invoke "doFoo" (.obj [("a", 1)]) true) =
      .ok ({ witnessState with
              pending := witnessState.pending ++ [PendingCb.invokeCb true] },
           [Output.rpc (RpcRequest.invoke "doFoo" (some [("a", 1)]) true)]) ∧
    (stepTotal witnessState (.completeInvoke true (.ok ⟨42⟩))).2 =
      [Output.cbValue 42] ∧
    (stepTotal witnessState (.completeInvoke true (.error "bad"))).2 =
      [Output.cbError "bad"] := by
  have h := c4_invoke_contract witnessState "doFoo" [("a", 1)] 42 "bad"
  exact ⟨h.1, (h.2.2.1 (by decide)).1, (h.2.2.1 (by decide)).2⟩

/-- C5: a successful release completion first emits the release event,
then the teardown of all listeners (whose removals make the internal
removeListener handler emit one unsubscribe per event key), and the
resulting object has zero listeners of any kind. -/
theorem c5_release_success (s : ProxyState)
    (hmem : PendingCb.releaseCb ∈ s.pending) (halive : s.alive = true) :
    (stepTotal s (.completeRelease none)).2 =
      Output.releaseEvent ::
        (teardownKeys s.events).map
          (fun k => Output.rpc (RpcRequest.unsubscribe (jsGet s.tokens k))) ∧
    ∀ E, listenerCount (stepTotal s (.completeRelease none)).1 E = 0 := by
  constructor
  · simp [stepTotal, step, hmem, halive]
  · intro E
    simp [stepTotal, step, hmem, halive, listenerCount, appCount, jsGet]

/-- Witness for C5 at a concrete state. -/
theorem c5_release_success_witness :
    (stepTotal witnessState (.completeRelease none)).2 =
      [Output.releaseEvent,
       Output.rpc (RpcRequest.unsubscribe none),
       Output.rpc (RpcRequest.unsubscribe (some "tok7")),
       Output.rpc (RpcRequest.unsubscribe none)] ∧
    listenerCount (stepTotal witnessState (.completeRelease none)).1 "X" = 0 := by
  have h := c5_release_success witnessState (by decide) rfl
  exact ⟨h.1.trans (by decide), h.2 "X"⟩

/-- C6: a failed release completion only logs the error: no error
event, no release event, nothing thrown, and the listener table, the
liveness flag and the ledger are all left unchanged. -/
theorem c6_release_failure_logged (s : ProxyState) (e : String)
    (hmem : PendingCb.releaseCb ∈ s.pending) :
    step s (.completeRelease (some e)) =
      .ok ({ s with pending := removeFirst s.pending PendingCb.releaseCb },
           [Output.log e]) := by
  simp [step, hmem]

/-- Witness for C6 at a concrete state. -/
theorem c6_release_failure_logged_witness :
    step witnessState (.completeRelease (some "offline")) =
      .ok ({ witnessState with
              pending := removeFirst witnessState.pending PendingCb.releaseCb },
           [Output.log "offline"]) :=
  c6_release_failure_logged witnessState "offline" (by decide)

/-- C7: invoke with a function in the params position and a callback
also supplied throws a SyntaxError synchronously, before any rpc
emission. -/
theorem c7_invoke_params_function_throws (s : ProxyState) (m : String) :
    step s (.invoke m .func true) =
      .error "Nothing can be defined after the callback" :=
  rfl

/-- The statement of C8 as claimed: every supplied property is defined
on the proxy as an immutable and enumerable attribute. -/
def C8Statement : Prop :=
  ∀ (id : String) (parent : ObjRef) (pipeline : Option ObjRef)
      (params : List (String × String)) (k v : String),
    jsGet params k = some v →
      ∃ d, jsGet (construct id parent pipeline params).properties k = some d ∧
        d.value = v ∧ d.writable = false ∧ d.configurable = false ∧
        d.enumerable = true

/-- C8 counterexample: constructing with the single property a maps it
to a descriptor with enumerable set to false, because the descriptor
passed to Object.defineProperty at line 38 carries only a value and
the enumerable flag therefore defaults to false. -/
theorem c8_enumerable_counterexample : ¬ C8Statement := by
  intro h
  obtain ⟨d, hd, hv, hw, hc, he⟩ :=
    h "o1" (ObjRef.external "p") none [("a", "1")] "a" "1" (by decide)
  simp [construct, defineProperty, jsGet] at hd
  subst hd
  simp at he

/-- C8 amended: every supplied property is defined as an immutable and
non-enumerable attribute; id, parent and pipeline are likewise
immutable; and when no pipeline argument is given the pipeline
attribute refers to the object itself. -/
theorem c8_construction_properties (id : String) (parent : ObjRef)
    (pipeline : Option ObjRef) (params : List (String × String))
    (k v : String) (h : jsGet params k = some v) :
    jsGet (construct id parent pipeline params).properties k =
      some { value := v, writable := false, enumerable := false,
             configurable := false } ∧
    (construct id parent pipeline params).idProp =
      { value := id, writable := false, enumerable := false,
        configurable := false } ∧
    (construct id parent pipeline params).parentProp =
      { value := parent, writable := false, enumerable := false,
        configurable := false } ∧
    (construct id parent pipeline params).pipelineProp =
      { value := pipeline.getD ObjRef.selfRef, writable := false,
        enumerable := false, configurable := false } ∧
    (pipeline = none →
      (construct id parent pipeline params).pipelineProp.value = ObjRef.selfRef) := by
  refine ⟨?_, rfl, rfl, rfl, ?_⟩
  · show jsGet (params.map (fun kv => (kv.1, defineProperty kv.2))) k = _
    rw [jsGet_map (fun v2 => defineProperty v2) params k, h]
    rfl
  · intro hp
    rw [hp]
    rfl

/-- Witness for the amended C8 at concrete arguments. -/
theorem c8_construction_properties_witness :
    jsGet (construct "o1" (ObjRef.external "p") none [("a", "1")]).properties "a" =
      some { value := "1", writable := false, enumerable := false,
             configurable := false } ∧
    (construct "o1" (ObjRef.external "p") none [("a", "1")]).pipelineProp.value =
      ObjRef.selfRef := by
  have h := c8_construction_properties "o1" (ObjRef.external "p") none
    [("a", "1")] "a" "1" (by decide)
  exact ⟨h.1, h.2.2.2.2 rfl⟩

/-- C9: the release and rpc exclusions act only on the subscribe side.
Removing the last listener for release or for the rpc gateway event on
a proxy that never subscribed for it still emits an unsubscribe
request, whose subscription field is undefined because the ledger
holds no token for that event. -/
theorem c9_unsubscribe_not_excluded (s : ProxyState) (E : String)
    (halive : s.alive = true) (hE : E = "release" ∨ E = "_rpc")
    (hone : jsGet s.events E = some 1) (hnotok : jsGet s.tokens E = none) :
    (stepTotal s (.off E)).2 = [Output.rpc (RpcRequest.unsubscribe none)] := by
  have hz : listenerCount { s with events := removeOne s.events E } E = 0 := by
    rcases hE with rfl | rfl <;>
      · rw [listenerCount_of_plain _ _ (by decide) (by decide)]
        exact jsGet_removeOne_self s.events _ 0 hone
  rw [stepTotal_off_unsub s E 0 halive hone hz, hnotok]

/-- Witness for C9 at a concrete state. -/
theorem c9_unsubscribe_not_excluded_witness :
    (stepTotal witnessState (.off "release")).2 =
      [Output.rpc (RpcRequest.unsubscribe none)] :=
  c9_unsubscribe_not_excluded witnessState "release" rfl (Or.inl rfl)
    (by decide) (by decide)

/-- C10: invoke without a completion handler emits the invoke request
with an undefined completion callback, and the completion of that
request, successful or failed, is discarded entirely: no error event,
no exception, no callback call, and the listener table and ledger are
unchanged. -/
theorem c10_invoke_without_callback (s : ProxyState) (m : String)
    (p : ParamsObj) (r : Except String RawResult) :
    step s (.invoke m (.obj p) false) =
      .ok ({ s with pending := s.pending ++ [PendingCb.invokeCb false] },
           [Output.rpc (RpcRequest.invoke m (some p) false)]) ∧
    (PendingCb.invokeCb false ∈ s.pending →
      stepTotal s (.completeInvoke false r) =
        ({ s with pending := removeFirst s.pending (PendingCb.invokeCb false) },
         [])) := by
  refine ⟨rfl, ?_⟩
  intro h
  simp [stepTotal, step, h]

/-- Witness for C10 at a concrete state, with a failing completion. -/
theorem c10_invoke_without_callback_witness :
    step witnessState (.invoke "doFoo" (.obj [("a", 1)]) false) =
      .ok ({ witnessState with
              pending := witnessState.pending ++ [PendingCb.invokeCb false] },
           [Output.rpc (RpcRequest.invoke "doFoo" (some [("a", 1)]) false)]) ∧
    stepTotal witnessState (.completeInvoke false (.error "boom")) =
      ({ witnessState with
          pending := removeFirst witnessState.pending (PendingCb.invokeCb false) },
       []) := by
  have h := c10_invoke_without_callback witnessState "doFoo" [("a", 1)]
    (.error "boom")
  exact ⟨h.1, h.2 (by decide)⟩

end KurentoMediaObject
